import Mathlib

/-!
Verification development for the TraceNest logging engine.

The Python sources under tracenest/ are shallowly embedded here:
pure functions become Lean functions, stateful code becomes explicit
state passing, exceptions become Except / Option results, and Python
strings are modelled as Lean strings (lists of unicode code points,
matching Python len/slicing semantics, which count code points).

Two configuration constants (MAX_LOG_RECORD_SIZE_BYTES and
MAX_EXCEPTION_STACK_LENGTH) are imported by the sources from
tracenest/core/config.py but are absent from that file; they are
modelled as explicit parameters, following the spec which names the
caps but gives them no numeric value.
-/

namespace TraceNest

/-! ## Configuration constants (tracenest/core/config.py) -/

/-- PROJECT_NAME from config.py. -/
def PROJECT_NAME : String := "TraceNest"

/-- PROJECT_VERSION from config.py. -/
def PROJECT_VERSION : String := "0.1.x"

/-- MAX_MESSAGE_LENGTH from config.py. -/
def MAX_MESSAGE_LENGTH : Nat := 10000

/-- MAX_METADATA_SIZE from config.py. -/
def MAX_METADATA_SIZE : Nat := 5000

/-- MAX_METADATA_KEYS from config.py. -/
def MAX_METADATA_KEYS : Nat := 50

/-- MAX_METADATA_KEY_LENGTH from config.py. -/
def MAX_METADATA_KEY_LENGTH : Nat := 100

/-- FAIL_SILENTLY from config.py. -/
def FAIL_SILENTLY : Bool := true

/-- WRITE_BUFFER_SIZE from config.py. -/
def WRITE_BUFFER_SIZE : Nat := 50

/-- MAX_ROTATED_FILES_PER_DAY from config.py. -/
def MAX_ROTATED_FILES_PER_DAY : Nat := 5

/-- MAX_LOG_FILE_SIZE_BYTES from config.py (25 MB). -/
def MAX_LOG_FILE_SIZE_BYTES : Nat := 25 * 1024 * 1024

/-- LOG_FILE_EXTENSION from config.py. -/
def LOG_FILE_EXTENSION : String := ".log"

/-- ARCHIVE_DIR_NAME from config.py. -/
def ARCHIVE_DIR_NAME : String := "archive"

/-- ENABLE_ROTATION from config.py. -/
def ENABLE_ROTATION : Bool := true

/-! ## Python string primitives

Python strings are sequences of unicode code points; len and slicing
count code points.  To keep every definition kernel-computable we
implement the handful of string operations the sources use directly
on the underlying character list. -/

/-- Python len(s) for a str: number of code points. -/
def pyLen (s : String) : Nat := s.data.length

/-- Python s[:n] slicing: first n code points. -/
def pySlice (s : String) (n : Nat) : String := String.mk (s.data.take n)

/-- Python s.startswith(p). -/
def pyStartsWith (s p : String) : Bool := p.data.isPrefixOf s.data

/-- Python s.endswith(p). -/
def pyEndsWith (s p : String) : Bool := p.data.isSuffixOf s.data

/-- Python s.upper() restricted to the ASCII case mapping used by the
log level strings (Char.toUpper upcases ASCII letters only, which
agrees with Python on all inputs appearing in this development). -/
def pyUpper (s : String) : String := String.mk (s.data.map Char.toUpper)

/-- Helper for pyReplace: one left-to-right non-overlapping
replacement pass over the character list, with fuel. -/
def pyReplaceAux (pat rep : List Char) (fuel : Nat) : List Char → List Char
  | [] => []
  | c :: rest =>
    match fuel with
    | 0 => c :: rest
    | Nat.succ fuel =>
      if pat ≠ [] ∧ pat.isPrefixOf (c :: rest) then
        rep ++ pyReplaceAux pat rep fuel ((c :: rest).drop pat.length)
      else
        c :: pyReplaceAux pat rep fuel rest

/-- Python s.replace(pat, rep): replaces every non-overlapping
occurrence, scanning left to right (empty pattern never occurs in the
sources, so that corner case is left as the identity). -/
def pyReplace (s pat rep : String) : String :=
  String.mk (pyReplaceAux pat.data rep.data s.data.length s.data)

/-- Model of Python int(text) restricted to what the sources feed it:
leading/trailing ASCII spaces stripped, an optional sign, then one or
more decimal digits.  (Python additionally accepts underscores between
digit groups and unicode digits; those never arise from the file names
this repository generates and are not modelled.) -/
def pyInt (s : String) : Option Int :=
  let chars := (s.data.dropWhile (· = ' ')).reverse.dropWhile (· = ' ') |>.reverse
  let (neg, digits) :=
    match chars with
    | '-' :: rest => (true, rest)
    | '+' :: rest => (false, rest)
    | rest => (false, rest)
  if digits ≠ [] ∧ digits.all Char.isDigit then
    let n : Nat := digits.foldl (fun acc c => acc * 10 + (c.toNat - 48)) 0
    some (if neg then -(n : Int) else (n : Int))
  else
    none

/-- UTF-8 byte width of one code point, as the files are written with
encoding utf-8 by the writer. -/
def charUtf8Size (c : Char) : Nat :=
  if c.val < 0x80 then 1
  else if c.val < 0x800 then 2
  else if c.val < 0x10000 then 3
  else 4

/-- UTF-8 byte length of a string written to a log file. -/
def utf8Len (s : String) : Nat := (s.data.map charUtf8Size).sum

/-! ## JSON values and json.dumps

Model of the JSON documents the formatter serializes, together with
the exact textual output of json.dumps(record, ensure_ascii=False,
sort_keys=True) with the default separators. -/

/-- JSON value, as serialized by json.dumps. -/
inductive Json where
  | str (s : String)
  | num (n : Int)
  | bool (b : Bool)
  | null
  | obj (fields : List (String × Json))
  | arr (elems : List Json)
  deriving Repr

/-- Lowercase hexadecimal digit, as used by json.dumps for control
character escapes. -/
def hexDigit (n : Nat) : Char :=
  if n < 10 then Char.ofNat (48 + n) else Char.ofNat (87 + n)

/-- Escape one character the way json.dumps (ensure_ascii=False)
escapes characters inside a JSON string literal. -/
def escChar (c : Char) : List Char :=
  if c = '"' then ['\\', '"']
  else if c = '\\' then ['\\', '\\']
  else if c = '\n' then ['\\', 'n']
  else if c = '\r' then ['\\', 'r']
  else if c = '\t' then ['\\', 't']
  else if c.val = 8 then ['\\', 'b']
  else if c.val = 12 then ['\\', 'f']
  else if c.val < 32 then
    ['\\', 'u', '0', '0', hexDigit ((c.toNat / 16) % 16), hexDigit (c.toNat % 16)]
  else [c]

/-- JSON string literal for s, per json.dumps with ensure_ascii=False. -/
def quoteStr (s : String) : String :=
  "\"" ++ String.mk (s.data.flatMap escChar) ++ "\""

/-- Python string comparison (code point lexicographic), used by
sort_keys=True. -/
def charListLt : List Char → List Char → Bool
  | [], [] => false
  | [], _ :: _ => true
  | _ :: _, [] => false
  | a :: as, b :: bs =>
    if a.val < b.val then true
    else if b.val < a.val then false
    else charListLt as bs

/-- Python operator < on strings. -/
def pyStrLt (a b : String) : Bool := charListLt a.data b.data

/-- Stable insertion of one keyed field into a key-sorted field list. -/
def insertByKey (x : String × Json) : List (String × Json) → List (String × Json)
  | [] => [x]
  | y :: ys => if pyStrLt y.1 x.1 then y :: insertByKey x ys else x :: y :: ys

/-- Stable sort of object fields by key, modelling sorted(dict) used
by json.dumps with sort_keys=True. -/
def sortByKey : List (String × Json) → List (String × Json)
  | [] => []
  | x :: xs => insertByKey x (sortByKey xs)

/-- Fuelled serializer body for dumpJson; the fuel only decreases with
object/array nesting, so any fuel at least the nesting depth gives the
exact json.dumps output. -/
def dumpJsonF : Nat → Json → String
  | 0, _ => ""
  | Nat.succ _, Json.str s => quoteStr s
  | Nat.succ _, Json.num n => toString n
  | Nat.succ _, Json.bool b => if b then "true" else "false"
  | Nat.succ _, Json.null => "null"
  | Nat.succ fuel, Json.obj fields =>
    "\x7b" ++
      String.intercalate ", "
        ((sortByKey fields).map (fun kv => quoteStr kv.1 ++ ": " ++ dumpJsonF fuel kv.2)) ++
      "\x7d"
  | Nat.succ fuel, Json.arr elems =>
    "[" ++ String.intercalate ", " (elems.map (dumpJsonF fuel)) ++ "]"

mutual

/-- Nesting depth of a JSON value, used as the fuel for dumpJsonF. -/
def jsonDepth : Json → Nat
  | .obj fields => 1 + jsonFieldsDepth fields
  | .arr elems => 1 + jsonElemsDepth elems
  | _ => 1

/-- Maximum depth over the values of an object field list. -/
def jsonFieldsDepth : List (String × Json) → Nat
  | [] => 0
  | (_, v) :: rest => max (jsonDepth v) (jsonFieldsDepth rest)

/-- Maximum depth over the elements of an array. -/
def jsonElemsDepth : List Json → Nat
  | [] => 0
  | v :: rest => max (jsonDepth v) (jsonElemsDepth rest)

end

/-- json.dumps(j, ensure_ascii=False, sort_keys=True): the depth fuel
always dominates the nesting, so the fuel never runs out. -/
def dumpJson (j : Json) : String := dumpJsonF (jsonDepth j) j

/-! ## Formatter (tracenest/core/formatter.py)

An arbitrary Python object is modelled by the two observations the
formatter makes of it: whether json.dumps(obj) succeeds (and with
which JSON value), and whether str(obj) succeeds (and with which
text).  A raised exception is modelled as the corresponding Option
being none / an Except error. -/

/-- Model of an arbitrary Python object as seen by the formatter:
dumps is the JSON value json.dumps would serialize it as (none when
json.dumps raises), pyStr is the result of str(obj) (none when the
dunder str raises). -/
structure PyObj where
  dumps : Option Json
  pyStr : Option String
  deriving Repr

/-- A Python str wrapped as a PyObj: json-serializable as itself and
its str() is itself. -/
def strObj (s : String) : PyObj := { dumps := some (Json.str s), pyStr := some s }

/-- Value returned by the _safe_json_value helper: either the original
object (kept because json.dumps succeeded on it) or a replacement
text (the str() fallback or the literal placeholder). -/
inductive SafeVal where
  | orig (v : PyObj)
  | text (s : String)
  deriving Repr

/-- Embedding of _safe_json_value (formatter.py lines 65-76): keep the
value if json.dumps accepts it, else fall back to str(value), else to
the literal placeholder string. -/
def safe_json_value (v : PyObj) : SafeVal :=
  match v.dumps with
  | some _ => .orig v
  | none =>
    match v.pyStr with
    | some s => .text s
    | none => .text "<unserializable>"

/-- Python str() applied to a SafeVal, as done for the running size
estimate in _sanitize_metadata: str() of a kept original may itself
raise (error), str() of a replacement text is that text. -/
def SafeVal.strOf : SafeVal → Except Unit String
  | .orig v =>
    match v.pyStr with
    | some s => .ok s
    | none => .error ()
  | .text s => .ok s

/-- JSON value a SafeVal contributes to the record: a kept original
serializes as its json.dumps value (present by construction), a
replacement text as a JSON string. -/
def SafeVal.toJson : SafeVal → Json
  | .orig v => v.dumps.getD Json.null
  | .text s => Json.str s

/-- Metadata argument as _sanitize_metadata receives it: None, a
non-mapping object, or a dict given by its insertion-ordered entry
list. -/
inductive MetaInput where
  | noneMeta
  | notDict (v : PyObj)
  | dict (entries : List (PyObj × PyObj))

/-- Python dict assignment d[k] = v on an insertion-ordered entry
list: overwrites in place when the key exists, else appends. -/
def dictInsert (d : List (String × SafeVal)) (k : String) (v : SafeVal) :
    List (String × SafeVal) :=
  match d with
  | [] => [(k, v)]
  | (k0, v0) :: rest =>
    if k0 = k then (k, v) :: rest else (k0, v0) :: dictInsert rest k v

/-- Loop body of _sanitize_metadata (formatter.py lines 100-113),
carrying the accumulated dict, the running size estimate and the key
count; a raised str() propagates as an error (it is caught only by
the outer boundary in format_log). -/
def sanitizeLoop :
    List (PyObj × PyObj) → List (String × SafeVal) → Nat → Nat →
    Except Unit (List (String × SafeVal))
  | [], safe, _, _ => .ok safe
  | (k, v) :: rest, safe, total, count =>
    if count ≥ MAX_METADATA_KEYS then .ok safe
    else
      match k.pyStr with
      | none => .error ()
      | some ks =>
        match (safe_json_value v).strOf with
        | .error _ => .error ()
        | .ok vs =>
          if total + (pyLen (pySlice ks MAX_METADATA_KEY_LENGTH) + pyLen vs) >
              MAX_METADATA_SIZE then .ok safe
          else sanitizeLoop rest
            (dictInsert safe (pySlice ks MAX_METADATA_KEY_LENGTH) (safe_json_value v))
            (total + (pyLen (pySlice ks MAX_METADATA_KEY_LENGTH) + pyLen vs))
            (count + 1)

/-- Embedding of _sanitize_metadata (formatter.py lines 84-115):
falsy or non-dict input yields an empty dict, dict input runs the
bounded admission loop over the insertion-ordered entries. -/
def sanitize_metadata : MetaInput → Except Unit (List (String × SafeVal))
  | .noneMeta => .ok []
  | .notDict _ => .ok []
  | .dict entries => sanitizeLoop entries [] 0 0

/-- Observable content of a Python exception as _format_exception
uses it: none when any of the rendering steps raises (the inner
try of _format_exception then yields the empty, falsy dict), some
with the type name, str(exc), and the full rendered stack text
otherwise. -/
structure PyExc where
  excData : Option (String × String × String)
  deriving Repr

/-- Embedding of _format_exception (formatter.py lines 172-193) with
the stack cap as a parameter (MAX_EXCEPTION_STACK_LENGTH is imported
from config.py but absent there; modelled from the spec: a maximum
stack length with a truncation flag).  A none result stands for the
empty dict returned on internal failure. -/
def format_exception (stackCap : Nat) (exc : PyExc) : Option (List (String × Json)) :=
  match exc.excData with
  | none => none
  | some (ty, msg, stack) =>
    let truncated := pyLen stack > stackCap
    let stack2 := if truncated then pySlice stack stackCap else stack
    some [("type", Json.str ty), ("message", Json.str msg),
          ("stack", Json.str stack2), ("truncated", Json.bool truncated)]

/-- Embedding of _truncate (formatter.py lines 56-62) for an actual
str argument (the None branch is unreachable from format_log, which
always passes a str). -/
def truncate (s : String) (limit : Nat) : String :=
  if pyLen s ≤ limit then s else pySlice s limit

/-- Ambient, environment-determined values format_log reads: the
timestamp helper result (empty on its internal failure), the
environment tag, the runtime context (none stands for the empty dict
returned on failure) and the caller source info (none stands for the
empty dict). -/
structure FmtEnv where
  ts : String
  env : String
  ctx : Option (Int × String)
  src : Option (String × Int × String)

/-- Caller-supplied arguments of format_log. -/
structure FmtInput where
  level : PyObj
  message : PyObj
  metadata : MetaInput
  include_source : Bool
  exception : Option PyExc
  trace_id : Option String

/-- Runtime context block of the record: pid and thread name, or the
empty dict when _get_runtime_context failed internally. -/
def ctxJson : Option (Int × String) → Json
  | none => Json.obj []
  | some (pid, thread) => Json.obj [("pid", Json.num pid), ("thread", Json.str thread)]

/-- Source location block of the record. -/
def srcJson : String × Int × String → Json
  | (file, line, fn) =>
    Json.obj [("file", Json.str file), ("line", Json.num line), ("function", Json.str fn)]

/-- The record dict built by format_log (formatter.py lines 220-254)
from the already-normalized level text, message text and sanitized
metadata; insertion order is irrelevant because json.dumps sorts the
keys. -/
def buildRecord (stackCap : Nat) (e : FmtEnv) (i : FmtInput)
    (lvl msg : String) (meta : List (String × SafeVal)) : Json :=
  Json.obj (
    [("schema", Json.str "tracenest.v1"),
     ("project", Json.str PROJECT_NAME),
     ("version", Json.str PROJECT_VERSION),
     ("ts", Json.str e.ts),
     ("timestamp", Json.str e.ts),
     ("level", Json.str (pyUpper lvl)),
     ("msg", Json.str msg),
     ("message", Json.str msg),
     ("env", Json.str e.env),
     ("meta", Json.obj (meta.map (fun kv => (kv.1, kv.2.toJson)))),
     ("ctx", ctxJson e.ctx)]
    ++ (match i.trace_id with
        | some t => if t ≠ "" then [("trace_id", Json.str t)] else []
        | none => [])
    ++ (if i.include_source then
          match e.src with
          | some s => [("src", srcJson s)]
          | none => []
        else [])
    ++ (match i.exception with
        | some exc =>
          match format_exception stackCap exc with
          | some fields => [("exc", Json.obj fields)]
          | none => []
        | none => []))

/-- Final absolute size guard of format_log (formatter.py lines
262-264): truncate the serialized text itself when it exceeds the
record cap.  Python len and slicing count code points. -/
def finalGuard (cap : Nat) (s : String) : String :=
  if pyLen s > cap then pySlice s cap else s

/-- Body of the outer try of format_log (formatter.py lines 216-266):
every fallible step (str of the message, str of the level, the
metadata sanitizer) propagates its error to the boundary handler;
json.dumps of the record itself never raises because every value in
the record is JSON-serializable by construction. -/
def format_log_try (recordCap stackCap : Nat) (e : FmtEnv) (i : FmtInput) :
    Except Unit String :=
  match i.message.pyStr with
  | none => .error ()
  | some msgRaw =>
    match i.level.pyStr with
    | none => .error ()
    | some lvl =>
      match sanitize_metadata i.metadata with
      | .error u => .error u
      | .ok meta =>
        .ok (finalGuard recordCap
          (dumpJson (buildRecord stackCap e i lvl (truncate msgRaw MAX_MESSAGE_LENGTH) meta)))

/-- Embedding of format_log (formatter.py lines 201-271): the final
safety boundary; any internal error is swallowed into an empty string
when FAIL_SILENTLY holds, and re-raised otherwise.  The record cap
(MAX_LOG_RECORD_SIZE_BYTES, imported from config.py but absent there;
modelled from the spec: a maximum total size for the serialized line)
and the stack cap are parameters. -/
def format_log (recordCap stackCap : Nat) (e : FmtEnv) (i : FmtInput) :
    Except Unit String :=
  match format_log_try recordCap stackCap e i with
  | .ok s => .ok s
  | .error u => if FAIL_SILENTLY then .ok "" else .error u

/-! ## Writer (tracenest/core/writer.py)

The LogWriter instance state is the in-memory line buffer, the owning
process id and the shutdown flag.  The appended-to daily file is
modelled as the list of lines it holds (each implicitly followed by
one newline); the daily path resolution and the rotation calls made
during a flush act on the file system only, never on the buffer, and
their file-system effect is modelled separately (rotation below). -/

/-- Mutable state of one LogWriter instance. -/
structure WriterState where
  buffer : List String
  pid : Nat
  shuttingDown : Bool
  deriving Repr, DecidableEq

/-- Outcome of the fallible file-system section of one flush: ok when
the mkdir/open/append cycle completes, failAfter k when it raises
after k buffered lines reached the file (k = 0 for a failure before
any line, e.g. in mkdir or open). -/
inductive FlushOutcome where
  | ok
  | failAfter (k : Nat)
  deriving Repr, DecidableEq

/-- Embedding of LogWriter._flush_locked (writer.py lines 146-180):
an empty buffer returns immediately; otherwise the buffered lines are
appended on success, and on any failure the partial append stands and
the buffer is unconditionally cleared (never retried).  Returns the
new writer state and the new file contents. -/
def flush_locked (outcome : FlushOutcome) (st : WriterState) (file : List String) :
    WriterState × List String :=
  if st.buffer.isEmpty then (st, file)
  else
    match outcome with
    | .ok => ({ st with buffer := [] }, file ++ st.buffer)
    | .failAfter k => ({ st with buffer := [] }, file ++ st.buffer.take k)

/-- Embedding of LogWriter.write (writer.py lines 102-129): drop empty
lines, drop while shutting down, drop oversized lines (strictly above
the record cap), reinitialize on a fork (process id mismatch clears
the buffer), then append to the buffer and flush synchronously when
the buffer has reached WRITE_BUFFER_SIZE.  curPid is the ambient
os.getpid() result; the record cap is the spec-modelled
MAX_LOG_RECORD_SIZE_BYTES parameter, the same one the formatter
uses. -/
def LogWriter_write (recordCap : Nat) (outcome : FlushOutcome) (curPid : Nat)
    (line : String) (st : WriterState) (file : List String) :
    WriterState × List String :=
  if line = "" ∨ st.shuttingDown then (st, file)
  else if pyLen line > recordCap then (st, file)
  else
    let st1 := if curPid ≠ st.pid then { st with pid := curPid, buffer := [] } else st
    let st2 := { st1 with buffer := st1.buffer ++ [line] }
    if WRITE_BUFFER_SIZE ≤ st2.buffer.length then flush_locked outcome st2 file
    else (st2, file)

/-- A sequence of write calls, all under the same ambient process id
and flush outcome. -/
def writeSeq (recordCap : Nat) (outcome : FlushOutcome) (curPid : Nat) :
    List String → WriterState → List String → WriterState × List String
  | [], st, file => (st, file)
  | l :: ls, st, file =>
    let (st1, file1) := LogWriter_write recordCap outcome curPid l st file
    writeSeq recordCap outcome curPid ls st1 file1

/-! ## Logger facade (tracenest/logger.py)

The facade keeps one process-wide writer slot behind double-checked
locking, and a per-thread reentrancy flag around the core _log entry
point.  Writer construction is fallible; the outcome of the n-th
construction attempt in a process is given by an oracle. -/

/-- Process-wide facade globals: the writer slot (_writer_instance)
and the number of LogWriter constructions attempted so far (the index
into the construction oracle). -/
structure LoggerGlobals where
  writer : Option WriterState
  ctorAttempts : Nat
  deriving Repr, DecidableEq

/-- The writer state a successful construction produces: empty buffer,
current pid, not shutting down. -/
def freshWriter (curPid : Nat) : WriterState :=
  { buffer := [], pid := curPid, shuttingDown := false }

/-- Embedding of _get_writer (logger.py lines 98-113): when the slot
is filled, return it; when empty, attempt one construction (ctorOk n
tells whether the n-th attempt in this process succeeds) and on
failure leave the slot empty (the None sentinel cannot distinguish
a failed attempt from no attempt).  The double-checked locking
collapses under the sequential model. -/
def get_writer (ctorOk : Nat → Bool) (curPid : Nat) (g : LoggerGlobals) :
    Option WriterState × LoggerGlobals :=
  match g.writer with
  | some w => (some w, g)
  | none =>
    if ctorOk g.ctorAttempts then
      (some (freshWriter curPid), { writer := some (freshWriter curPid), ctorAttempts := g.ctorAttempts + 1 })
    else
      (none, { writer := none, ctorAttempts := g.ctorAttempts + 1 })

/-- Write-path tail of _log (logger.py lines 155-170) for one call,
abstracting the already-formatted line: an empty formatter result
returns before the writer is consulted, otherwise the writer is
fetched (possibly constructing it) and, when available, the line is
recorded as written; with no writer the line is intentionally
dropped. -/
def log_call (ctorOk : Nat → Bool) (curPid : Nat) (line : String)
    (g : LoggerGlobals) (written : List String) : LoggerGlobals × List String :=
  if line = "" then (g, written)
  else
    match get_writer ctorOk curPid g with
    | (some _, g1) => (g1, written ++ [line])
    | (none, g1) => (g1, written)

/-- A sequence of facade log calls with the given formatted lines. -/
def log_calls (ctorOk : Nat → Bool) (curPid : Nat) :
    List String → LoggerGlobals → List String → LoggerGlobals × List String
  | [], g, written => (g, written)
  | l :: ls, g, written =>
    let (g1, w1) := log_call ctorOk curPid l g written
    log_calls ctorOk curPid ls g1 w1

/-! ## Reentrancy guard of _log (logger.py lines 121-176)

The core entry point is modelled as a trace-producing state machine
on the per-thread in_log flag.  The write path may invoke a sink that
itself performs a log call on the same thread (the nested call); the
fuel bounds that nesting and only decreases across nested calls. -/

/-- Observable actions of one _log activation. -/
inductive LogEvent where
  | formatted
  | writeAttempt
  deriving Repr, DecidableEq

/-- Embedding of _log as seen by the reentrancy guard: shuttingDown
is the global shutdown flag, inLog the per-thread flag, fmtEmpty
tells whether format_log returned the empty drop signal, writerOk
whether a writer is available, and sinkLogs whether the write path
itself performs a nested log call during its own invocation.  The
returned flag is the per-thread flag after the call (restored by the
finally block). -/
def log_entry (fuel : Nat) (shuttingDown inLog fmtEmpty writerOk sinkLogs : Bool) :
    Bool × List LogEvent :=
  match fuel with
  | 0 => (inLog, [])
  | Nat.succ fuel =>
    if shuttingDown then (inLog, [])
    else if inLog then (inLog, [])
    else
      if fmtEmpty then (false, [LogEvent.formatted])
      else if writerOk then
        let nested :=
          if sinkLogs then
            (log_entry fuel shuttingDown true fmtEmpty writerOk sinkLogs).2
          else []
        (false, [LogEvent.formatted, LogEvent.writeAttempt] ++ nested)
      else (false, [LogEvent.formatted])

/-! ## Rotation (tracenest/core/rotation.py) -/

/-- One directory entry of the archive directory as rotation observes
it: its name and whether it is a regular file (directories and
dangling symlinks report false). -/
structure FsEntry where
  name : String
  isFile : Bool
  deriving Repr, DecidableEq

/-- A path inside the archive directory exists when any entry bears
that name, regular file or not. -/
def pathExists (entries : List FsEntry) (name : String) : Bool :=
  entries.any (fun e => e.name = name)

/-- Index a directory entry contributes to the used set: the entry
must be a regular file whose name starts with base followed by the
separator; the suffix surgery strips every occurrence of that prefix
and of the extension and then parses an int, skipping the entry when
parsing fails (rotation.py lines 135-149). -/
def entryIndex (base : String) (e : FsEntry) : Option Int :=
  if e.isFile ∧ pyStartsWith e.name (base ++ "_") then
    pyInt (pyReplace (pyReplace e.name (base ++ "_") "") LOG_FILE_EXTENSION "")
  else none

/-- The used index set the scan of _next_rotation_index builds. -/
def usedIndices (entries : List FsEntry) (base : String) : List Int :=
  entries.filterMap (entryIndex base)

/-- The selection loop of _next_rotation_index (rotation.py lines
152-156): iterate the candidate indices in order and return the first
one not in the used set, none when the range is exhausted. -/
def firstNotUsed (used : List Int) : List Nat → Option Nat
  | [] => none
  | i :: rest => if used.contains (i : Int) then firstNotUsed used rest else some i

/-- Embedding of _next_rotation_index (rotation.py lines 126-159):
the candidate list range' 1 MAX_ROTATED_FILES_PER_DAY is exactly the
Python range(1, MAX_ROTATED_FILES_PER_DAY + 1). -/
def next_rotation_index (entries : List FsEntry) (base : String) : Option Nat :=
  firstNotUsed (usedIndices entries base) (List.range' 1 MAX_ROTATED_FILES_PER_DAY)

/-- Result of one _rotate call. -/
inductive RotateResult where
  | noop
  | rotated (target : String)
  deriving Repr, DecidableEq

/-- The archive file name rotation gives index i for a base name. -/
def rotatedName (base : String) (i : Nat) : String :=
  base ++ "_" ++ toString i ++ LOG_FILE_EXTENSION

/-- Embedding of _rotate (rotation.py lines 81-123) over a race-free
snapshot of the file system: logExists and size describe the active
log file, entries the archive directory.  The double existence and
size checks of the source collapse because no concurrent mutation is
modelled. -/
def rotate (logExists : Bool) (size : Nat) (entries : List FsEntry) (base : String) :
    RotateResult :=
  if ¬logExists then .noop
  else if size < MAX_LOG_FILE_SIZE_BYTES then .noop
  else
    match next_rotation_index entries base with
    | none => .noop
    | some i =>
      let target := rotatedName base i
      if pathExists entries target then .noop
      else .rotated target

/-! ## Retention (tracenest/core/retention.py) -/

/-- One directory entry as the retention scan observes it: name,
whether is_file() reports true (following symlinks, so a symlink to a
regular file reports true), whether it is a symlink, and its mtime
(timestamps modelled as integers; only their order matters). -/
structure REntry where
  name : String
  isFile : Bool
  isSymlink : Bool
  mtime : Int
  deriving Repr, DecidableEq

/-- Digit test for the strptime date check. -/
def allDigits (s : String) : Bool :=
  s ≠ "" ∧ s.data.all Char.isDigit

/-- Split a character list on the separator character. -/
def splitOnChar (sep : Char) : List Char → List (List Char)
  | [] => [[]]
  | c :: rest =>
    let groups := splitOnChar sep rest
    if c = sep then [] :: groups
    else
      match groups with
      | [] => [[c]]
      | g :: gs => (c :: g) :: gs

/-- Model of time.strptime(s, LOG_FILE_DATE_FORMAT) succeeding: up to
four digits of year, one or two digits of month in 1..12, one or two
digits of day in 1..31, separated by literal dashes.  (The exact
calendar validation strptime performs beyond these range checks is
not modelled; no claim depends on it.) -/
def matchesDateFormat (s : String) : Bool :=
  match splitOnChar '-' s.data with
  | [y, m, d] =>
    allDigits (String.mk y) && y.length ≤ 4 &&
    allDigits (String.mk m) && m.length ≤ 2 &&
    allDigits (String.mk d) && d.length ≤ 2 &&
    (match pyInt (String.mk m) with
     | some mv => 1 ≤ mv ∧ mv ≤ 12
     | none => false) &&
    (match pyInt (String.mk d) with
     | some dv => 1 ≤ dv ∧ dv ≤ 31
     | none => false)
  | _ => false

/-- Embedding of _looks_like_tracenest_log (retention.py lines
182-195): the name must end with the log extension and the name with
every occurrence of the extension stripped must parse as a date. -/
def looks_like_tracenest_log (filename : String) : Bool :=
  if ¬pyEndsWith filename LOG_FILE_EXTENSION then false
  else matchesDateFormat (pyReplace filename LOG_FILE_EXTENSION "")

/-- Embedding of _clean_directory (retention.py lines 109-143),
returning the entries the pass unlinks: entries that are regular
files, not symlinks, pass the name filter unless allowAll holds, and
are strictly older than the cutoff.  Per-entry stat or unlink
failures only shrink this set and are not modelled. -/
def clean_directory (entries : List REntry) (cutoff : Int) (allowAll : Bool) :
    List REntry :=
  entries.filter (fun e =>
    e.isFile && !e.isSymlink &&
    (allowAll || looks_like_tracenest_log e.name) &&
    decide (e.mtime < cutoff))

/-- Embedding of _clean_root_logs (retention.py lines 146-179),
returning the entries the pass unlinks: regular, non-symlink files
whose name differs from the active daily name, match the daily naming
pattern, and are strictly older than the cutoff. -/
def clean_root_logs (entries : List REntry) (cutoff : Int) (todayName : String) :
    List REntry :=
  entries.filter (fun e =>
    e.isFile && !e.isSymlink &&
    (e.name ≠ todayName) &&
    looks_like_tracenest_log e.name &&
    decide (e.mtime < cutoff))

/-! ## General lemmas about the embedded operations -/

/-- The final size guard never returns more code points than the cap. -/
lemma pyLen_finalGuard_le (cap : Nat) (s : String) : pyLen (finalGuard cap s) ≤ cap := by
  unfold finalGuard pySlice pyLen
  split
  · simp
  · omega

/-- Every ok result of the try body of format_log is the guarded
serialization of the record built from the normalized inputs. -/
lemma format_log_try_ok_shape (rc sc : Nat) (e : FmtEnv) (i : FmtInput) (s : String)
    (h : format_log_try rc sc e i = Except.ok s) :
    ∃ lvl msg meta, s = finalGuard rc (dumpJson (buildRecord sc e i lvl msg meta)) := by
  unfold format_log_try at h
  rcases hm : i.message.pyStr with _ | msgRaw <;> rw [hm] at h
  · exact absurd h (by simp)
  rcases hl : i.level.pyStr with _ | lvl <;> rw [hl] at h
  · exact absurd h (by simp)
  rcases hs : sanitize_metadata i.metadata with u | meta <;> rw [hs] at h
  · exact absurd h (by simp)
  exact ⟨lvl, truncate msgRaw MAX_MESSAGE_LENGTH, meta, (Except.ok.inj h).symm⟩

/-- format_log always answers ok with a string of at most rc code
points (shared backbone of the formatter claims). -/
lemma format_log_ok_len (rc sc : Nat) (e : FmtEnv) (i : FmtInput) (s : String)
    (h : format_log rc sc e i = Except.ok s) : pyLen s ≤ rc := by
  unfold format_log at h
  cases ht : format_log_try rc sc e i with
  | error u =>
    rw [ht] at h
    simp only [FAIL_SILENTLY, if_true, Except.ok.injEq] at h
    rw [← h]
    simp [pyLen]
  | ok t =>
    rw [ht] at h
    simp only [Except.ok.injEq] at h
    obtain ⟨lvl, msg, meta, hshape⟩ := format_log_try_ok_shape rc sc e i t ht
    rw [← h, hshape]
    exact pyLen_finalGuard_le rc _

/-! ## Claim theorems -/

/-- C1: for every combination of level, message, metadata, exception
and trace-id inputs (and every ambient environment and every value of
the two spec-modelled caps), format_log never raises: it always
returns ok, and the returned string is either the empty drop signal
or the cap-guarded serialization of a record; in particular oversized
or hostile metadata can only produce an error value that the boundary
converts to the empty string. -/
theorem format_log_never_raises (rc sc : Nat) (e : FmtEnv) (i : FmtInput) :
    ∃ s, format_log rc sc e i = Except.ok s ∧
      (s = "" ∨ ∃ rec : Json, s = finalGuard rc (dumpJson rec)) := by
  unfold format_log
  cases ht : format_log_try rc sc e i with
  | error u => exact ⟨"", by simp [FAIL_SILENTLY], Or.inl rfl⟩
  | ok t =>
    obtain ⟨lvl, msg, meta, hshape⟩ := format_log_try_ok_shape rc sc e i t ht
    exact ⟨t, rfl, Or.inr ⟨buildRecord sc e i lvl msg meta, hshape⟩⟩

/-- C3 (amended): the line returned by format_log never exceeds the
record cap in code points: the final guard truncates the serialized
text to at most MAX_LOG_RECORD_SIZE_BYTES characters.  (The original
claim spoke of the byte length; the guard compares and slices by
Python len, which counts code points, so the UTF-8 byte length of a
non-ASCII line can exceed the cap — see the counterexample.) -/
theorem format_log_char_cap (rc sc : Nat) (e : FmtEnv) (i : FmtInput) :
    pyLen ((format_log rc sc e i).toOption.getD "") ≤ rc := by
  rcases h : format_log rc sc e i with u | s
  · simp [Except.toOption, pyLen]
  · simpa [Except.toOption] using format_log_ok_len rc sc e i s h

/-- Concrete ambient environment for the C3 counterexample: the
environment tag read from the process environment is a ten-character
non-ASCII string (each character occupies two UTF-8 bytes). -/
def c3Env : FmtEnv := ⟨"t", "éééééééééé", none, none⟩

/-- Concrete formatter input for the C3 counterexample. -/
def c3In : FmtInput := ⟨strObj "info", strObj "m", MetaInput.noneMeta, false, none, none⟩

/-- The line format_log returns for the C3 counterexample input with
record cap 25. -/
def c3Line : String := (format_log 25 100 c3Env c3In).toOption.getD ""

set_option maxRecDepth 8000 in
/-- C3 counterexample: with record cap 25, format_log answers ok with
a non-empty line (25 code points after the final guard) whose UTF-8
byte length is 30, strictly above the cap — the byte length of a
non-empty returned line can exceed MAX_LOG_RECORD_SIZE_BYTES. -/
theorem format_log_byte_cap_cx :
    (format_log 25 100 c3Env c3In).isOk = true ∧
    c3Line ≠ "" ∧ pyLen c3Line = 25 ∧ utf8Len c3Line = 30 := by
  refine ⟨by decide, by decide, by decide, by decide⟩

/-- C10: a line produced by format_log is never hit by the oversized
drop branch of LogWriter.write: the formatter caps the code-point
length at the record cap, and write drops only lines strictly longer
than the same cap (the one MAX_LOG_RECORD_SIZE_BYTES constant both
import, modelled as the shared rc parameter), so a non-empty
formatter line is appended to the buffer whenever the writer is not
shutting down, no fork intervened and the buffer stays below
capacity. -/
theorem formatter_line_never_dropped (rc sc : Nat) (e : FmtEnv) (i : FmtInput)
    (s : String) (h : format_log rc sc e i = Except.ok s) :
    ¬(pyLen s > rc) ∧
    ∀ (outcome : FlushOutcome) (curPid : Nat) (st : WriterState) (file : List String),
      st.shuttingDown = false → st.pid = curPid → s ≠ "" →
      st.buffer.length + 1 < WRITE_BUFFER_SIZE →
      LogWriter_write rc outcome curPid s st file =
        ({ st with buffer := st.buffer ++ [s] }, file) := by
  have hlen := format_log_ok_len rc sc e i s h
  refine ⟨by omega, ?_⟩
  intro outcome curPid st file hsd hpid hne hcap
  have h1 : ¬(s = "" ∨ st.shuttingDown = true) := by simp [hne, hsd]
  have h2 : ¬(pyLen s > rc) := by omega
  have h3 : ¬(curPid ≠ st.pid) := by simp [hpid]
  have h4 : ¬(WRITE_BUFFER_SIZE ≤ (st.buffer ++ [s]).length) := by
    simp only [List.length_append, List.length_singleton]
    omega
  simp only [LogWriter_write, if_neg h1, if_neg h2, if_neg h3, if_neg h4]

/-- Concrete ambient environment for the C10 witness. -/
def c10Env : FmtEnv := ⟨"t", "local", none, none⟩

/-- Concrete formatter input for the C10 witness. -/
def c10In : FmtInput := ⟨strObj "info", strObj "hello", MetaInput.noneMeta, false, none, none⟩

/-- The line format_log returns for the C10 witness input. -/
def c10Line : String := (format_log 1000 100 c10Env c10In).toOption.getD ""

set_option maxRecDepth 8000 in
/-- Witness for C10 at a concrete input: the produced line is not
oversized for cap 1000 and a write buffers it. -/
theorem formatter_line_never_dropped_witness :
    ¬(pyLen c10Line > 1000) ∧
    LogWriter_write 1000 FlushOutcome.ok 7 c10Line (freshWriter 7) [] =
      ({ buffer := [c10Line], pid := 7, shuttingDown := false }, []) := by
  have h := formatter_line_never_dropped 1000 100 c10Env c10In c10Line (by rfl)
  refine ⟨h.1, ?_⟩
  have h2 := h.2 FlushOutcome.ok 7 (freshWriter 7) [] rfl rfl (by decide) (by decide)
  simpa [freshWriter] using h2

/-- C4: whatever the outcome of the file-system section, a completed
flush leaves the buffer empty — on failure the buffered lines are
dropped, never retried (only the prefix that reached the file before
the failure is persisted, the rest appears nowhere) — and the writer
state is otherwise untouched, so subsequent write and flush calls
proceed normally. -/
theorem flush_failure_clears_buffer (outcome : FlushOutcome) (st : WriterState)
    (file : List String) :
    (flush_locked outcome st file).1.buffer = [] ∧
    (flush_locked outcome st file).1.pid = st.pid ∧
    (flush_locked outcome st file).1.shuttingDown = st.shuttingDown ∧
    (∀ k, outcome = FlushOutcome.failAfter k → st.buffer ≠ [] →
      (flush_locked outcome st file).2 = file ++ st.buffer.take k) := by
  unfold flush_locked
  by_cases hb : st.buffer.isEmpty
  · have hnil : st.buffer = [] := by
      cases hbuf : st.buffer with
      | nil => rfl
      | cons a l => rw [hbuf] at hb; simp [List.isEmpty] at hb
    rw [if_pos hb]
    exact ⟨hnil, rfl, rfl, fun k _ hne => absurd hnil hne⟩
  · rw [if_neg hb]
    cases outcome with
    | ok => exact ⟨rfl, rfl, rfl, fun k hk => by cases hk⟩
    | failAfter k => exact ⟨rfl, rfl, rfl, fun k2 hk2 _ => by cases hk2; rfl⟩

/-- Witness for C4 at a concrete failed flush: two buffered lines,
failure after one reached the file; the buffer is cleared and only
the first line was persisted. -/
theorem flush_failure_clears_buffer_witness :
    (flush_locked (FlushOutcome.failAfter 1) ⟨["a", "b"], 3, false⟩ ["z"]).1.buffer = [] ∧
    (flush_locked (FlushOutcome.failAfter 1) ⟨["a", "b"], 3, false⟩ ["z"]).2 =
      ["z"] ++ (["a", "b"] : List String).take 1 := by
  have h := flush_failure_clears_buffer (FlushOutcome.failAfter 1) ⟨["a", "b"], 3, false⟩ ["z"]
  exact ⟨h.1, h.2.2.2 1 rfl (by decide)⟩

/-- Writes below capacity only accumulate in the buffer (shared
backbone of the buffering claims): from any state owned by the
current process and not shutting down, a sequence of valid lines
short enough to keep the buffer strictly below WRITE_BUFFER_SIZE is
appended to the buffer and the file is untouched. -/
lemma writeSeq_below_capacity (rc : Nat) (outcome : FlushOutcome) (pid : Nat) :
    ∀ (lines : List String) (st : WriterState) (file : List String),
      st.shuttingDown = false → st.pid = pid →
      st.buffer.length + lines.length < WRITE_BUFFER_SIZE →
      (∀ l ∈ lines, l ≠ "" ∧ pyLen l ≤ rc) →
      writeSeq rc outcome pid lines st file =
        ({ st with buffer := st.buffer ++ lines }, file) := by
  intro lines
  induction lines with
  | nil => intro st file _ _ _ _; simp [writeSeq]
  | cons l ls ih =>
    intro st file hsd hpid hlen hvalid
    obtain ⟨hne, hsize⟩ := hvalid l (by simp)
    have h1 : ¬(l = "" ∨ st.shuttingDown = true) := by simp [hne, hsd]
    have h2 : ¬(pyLen l > rc) := by omega
    have h3 : ¬(pid ≠ st.pid) := by simp [hpid]
    have h4 : ¬(WRITE_BUFFER_SIZE ≤ (st.buffer ++ [l]).length) := by
      simp only [List.length_append, List.length_singleton]
      simp at hlen
      omega
    have hstep : LogWriter_write rc outcome pid l st file =
        ({ st with buffer := st.buffer ++ [l] }, file) := by
      simp only [LogWriter_write, if_neg h1, if_neg h2, if_neg h3, if_neg h4]
    have hrec := ih { st with buffer := st.buffer ++ [l] } file hsd hpid
      (by simp; simp at hlen; omega)
      (fun x hx => hvalid x (by simp [hx]))
    calc writeSeq rc outcome pid (l :: ls) st file
        = writeSeq rc outcome pid ls { st with buffer := st.buffer ++ [l] } file := by
          simp only [writeSeq, hstep]
      _ = ({ st with buffer := (st.buffer ++ [l]) ++ ls }, file) := hrec
      _ = ({ st with buffer := st.buffer ++ l :: ls }, file) := by
          rw [List.append_assoc]; rfl

/-- C5: from a fresh writer, any sequence of fewer than
WRITE_BUFFER_SIZE write calls with non-empty, non-oversized lines
(same process id, not shutting down) produces no file content — the
lines are only buffered — and the call that makes the buffer reach
WRITE_BUFFER_SIZE entries performs the flush itself, synchronously,
inside write. -/
theorem writes_below_capacity_produce_no_file_content (rc : Nat)
    (outcome : FlushOutcome) (pid : Nat) (lines : List String) (file : List String) :
    (lines.length < WRITE_BUFFER_SIZE →
      (∀ l ∈ lines, l ≠ "" ∧ pyLen l ≤ rc) →
      writeSeq rc outcome pid lines (freshWriter pid) file =
        ({ buffer := lines, pid := pid, shuttingDown := false }, file)) ∧
    (∀ (st : WriterState) (line : String),
      st.shuttingDown = false → st.pid = pid → line ≠ "" → pyLen line ≤ rc →
      st.buffer.length + 1 = WRITE_BUFFER_SIZE →
      LogWriter_write rc outcome pid line st file =
        flush_locked outcome { st with buffer := st.buffer ++ [line] } file) := by
  constructor
  · intro hlen hvalid
    have h := writeSeq_below_capacity rc outcome pid lines (freshWriter pid) file rfl rfl
      (by simp [freshWriter]; omega) hvalid
    simpa [freshWriter] using h
  · intro st line hsd hpid hne hsize hfull
    have h1 : ¬(line = "" ∨ st.shuttingDown = true) := by simp [hne, hsd]
    have h2 : ¬(pyLen line > rc) := by omega
    have h3 : ¬(pid ≠ st.pid) := by simp [hpid]
    have h4 : WRITE_BUFFER_SIZE ≤ (st.buffer ++ [line]).length := by
      simp only [List.length_append, List.length_singleton]
      omega
    simp only [LogWriter_write, if_neg h1, if_neg h2, if_neg h3, if_pos h4]

/-- Witness for C5 at a concrete input: two valid writes from a fresh
writer leave the file empty and the buffer holding both lines, and a
write into a buffer one short of capacity flushes synchronously. -/
theorem writes_below_capacity_produce_no_file_content_witness :
    (writeSeq 5 FlushOutcome.ok 1 ["a", "b"] (freshWriter 1) [] =
      ({ buffer := ["a", "b"], pid := 1, shuttingDown := false }, [])) ∧
    (LogWriter_write 5 FlushOutcome.ok 1 "c" ⟨List.replicate 49 "x", 1, false⟩ [] =
      flush_locked FlushOutcome.ok ⟨List.replicate 49 "x" ++ ["c"], 1, false⟩ []) := by
  have h := writes_below_capacity_produce_no_file_content 5 FlushOutcome.ok 1 ["a", "b"] []
  refine ⟨h.1 (by decide) (by decide), ?_⟩
  have h2 := h.2 ⟨List.replicate 49 "x", 1, false⟩ "c" rfl rfl (by decide) (by decide)
    (by simp [WRITE_BUFFER_SIZE])
  exact h2

/-- Construction oracle for the C2 counterexample: the first LogWriter
construction attempt in the process fails, every later one succeeds. -/
def c2Oracle (n : Nat) : Bool := n != 0

/-- C2 counterexample: after a first log call whose Writer
construction fails (slot still empty, one attempt made), the next log
call attempts construction again — two attempts in total — succeeds,
and writes its line; so a first-attempt failure neither stops further
construction attempts nor keeps subsequent calls from writing. -/
theorem writer_ctor_failure_not_cached_cx :
    (log_call c2Oracle 1 "x" ⟨none, 0⟩ []).1 = ⟨none, 1⟩ ∧
    (log_call c2Oracle 1 "x" ⟨none, 0⟩ []).2 = [] ∧
    (log_calls c2Oracle 1 ["x", "y"] ⟨none, 0⟩ []).1.ctorAttempts = 2 ∧
    (log_calls c2Oracle 1 ["x", "y"] ⟨none, 0⟩ []).2 = ["y"] := by
  exact ⟨rfl, rfl, rfl, rfl⟩

/-- While every construction attempt fails, each log call re-attempts
construction and writes nothing (shared backbone of the amended C2). -/
lemma log_calls_all_fail (f : Nat → Bool) (pid : Nat) (hf : ∀ n, f n = false) :
    ∀ (lines : List String) (g : LoggerGlobals) (w : List String),
      g.writer = none → (∀ l ∈ lines, l ≠ "") →
      log_calls f pid lines g w = (⟨none, g.ctorAttempts + lines.length⟩, w) := by
  intro lines
  induction lines with
  | nil => intro g w hw _; simp [log_calls, ← hw]
  | cons l ls ih =>
    intro g w hw hvalid
    have hne : l ≠ "" := hvalid l (by simp)
    have hstep : log_call f pid l g w = (⟨none, g.ctorAttempts + 1⟩, w) := by
      simp only [log_call, if_neg hne, get_writer, hw, hf g.ctorAttempts]
      rfl
    have hrec := ih ⟨none, g.ctorAttempts + 1⟩ w rfl (fun x hx => hvalid x (by simp [hx]))
    calc log_calls f pid (l :: ls) g w
        = log_calls f pid ls ⟨none, g.ctorAttempts + 1⟩ w := by
          simp only [log_calls, hstep]
      _ = (⟨none, g.ctorAttempts + 1 + ls.length⟩, w) := hrec
      _ = (⟨none, g.ctorAttempts + (ls.length + 1)⟩, w) := by
          rw [Nat.add_assoc, Nat.add_comm 1 ls.length]
      _ = (⟨none, g.ctorAttempts + (l :: ls).length⟩, w) := by
          simp

/-- C2 (amended): a failed Writer construction is not cached — the
empty slot cannot distinguish a failed attempt from no attempt — so
every subsequent log call with a non-empty line re-attempts
construction (one attempt per call); while every attempt fails, no
line is ever written. -/
theorem writer_ctor_failure_retries (f : Nat → Bool) (pid : Nat)
    (lines : List String) (hf : ∀ n, f n = false) (hl : ∀ l ∈ lines, l ≠ "") :
    log_calls f pid lines ⟨none, 0⟩ [] = (⟨none, lines.length⟩, []) := by
  have h := log_calls_all_fail f pid hf lines ⟨none, 0⟩ [] rfl hl
  simpa using h

/-- Construction oracle for the C2 witness: every attempt fails. -/
def allFailOracle (_ : Nat) : Bool := false

/-- Witness for the amended C2 at a concrete input: three calls, three
construction attempts, nothing written. -/
theorem writer_ctor_failure_retries_witness :
    log_calls allFailOracle 1 ["a", "b", "c"] ⟨none, 0⟩ [] = (⟨none, 3⟩, []) := by
  have h := writer_ctor_failure_retries allFailOracle 1 ["a", "b", "c"]
    (fun n => rfl) (by decide)
  simpa using h

/-- A successful index search over a candidate range returns the first
candidate not in the used set: it lies in the range, it is unused,
and every smaller candidate in the range is used. -/
lemma firstNotUsed_range'_some (used : List Int) :
    ∀ (n a j : Nat), firstNotUsed used (List.range' a n) = some j →
      a ≤ j ∧ j < a + n ∧ used.contains (j : Int) = false ∧
      ∀ k, a ≤ k → k < j → used.contains (k : Int) = true := by
  intro n
  induction n with
  | zero => intro a j h; cases h
  | succ n ih =>
    intro a j h
    have hcons : List.range' a (n + 1) = a :: List.range' (a + 1) n := rfl
    rw [hcons] at h
    unfold firstNotUsed at h
    by_cases hc : used.contains (a : Int)
    · rw [if_pos hc] at h
      obtain ⟨h1, h2, h3, h4⟩ := ih (a + 1) j h
      refine ⟨by omega, by omega, h3, ?_⟩
      intro k hk1 hk2
      by_cases hka : k = a
      · rw [hka]; exact hc
      · exact h4 k (by omega) hk2
    · rw [if_neg hc] at h
      cases Option.some.inj h
      exact ⟨Nat.le_refl a, by omega, by simpa using hc, fun k hk1 hk2 => by omega⟩

/-- When every candidate in the range is used, the search fails. -/
lemma firstNotUsed_range'_none (used : List Int) :
    ∀ (n a : Nat), (∀ k, a ≤ k → k < a + n → used.contains (k : Int) = true) →
      firstNotUsed used (List.range' a n) = none := by
  intro n
  induction n with
  | zero => intro a _; rfl
  | succ n ih =>
    intro a hall
    have hcons : List.range' a (n + 1) = a :: List.range' (a + 1) n := rfl
    rw [hcons]
    unfold firstNotUsed
    rw [if_pos (hall a (Nat.le_refl a) (by omega))]
    exact ih (a + 1) (fun k hk1 hk2 => hall k (by omega) (by omega))

/-- C6: whenever the rotation step archives a file, the chosen target
name carries the smallest positive index not already in use for that
base name (in use meaning: contributed to the scanned used set by an
existing archive entry), that index never exceeds
MAX_ROTATED_FILES_PER_DAY, and the target path does not exist, so no
existing archive entry is overwritten; and when every index from 1 to
the cap is in use, rotation is skipped entirely — the file is left in
place. -/
theorem rotation_uses_smallest_unused_index (logExists : Bool) (size : Nat)
    (entries : List FsEntry) (base : String) :
    (∀ target, rotate logExists size entries base = RotateResult.rotated target →
      ∃ i, 1 ≤ i ∧ i ≤ MAX_ROTATED_FILES_PER_DAY ∧
        target = rotatedName base i ∧
        (usedIndices entries base).contains (i : Int) = false ∧
        (∀ j, 1 ≤ j → j < i → (usedIndices entries base).contains (j : Int) = true) ∧
        pathExists entries target = false) ∧
    ((∀ j, 1 ≤ j → j ≤ MAX_ROTATED_FILES_PER_DAY →
        (usedIndices entries base).contains (j : Int) = true) →
      rotate logExists size entries base = RotateResult.noop) := by
  constructor
  · intro target h
    unfold rotate at h
    by_cases hex : logExists = true
    · rw [if_neg (by simp [hex])] at h
      by_cases hsz : size < MAX_LOG_FILE_SIZE_BYTES
      · rw [if_pos hsz] at h; cases h
      · rw [if_neg hsz] at h
        cases hidx : next_rotation_index entries base with
        | none => rw [hidx] at h; cases h
        | some i =>
          rw [hidx] at h
          have h2 : (if pathExists entries (rotatedName base i) = true then
              RotateResult.noop else RotateResult.rotated (rotatedName base i)) =
              RotateResult.rotated target := h
          by_cases hpe : pathExists entries (rotatedName base i)
          · rw [if_pos hpe] at h2; cases h2
          · rw [if_neg hpe] at h2
            cases h2
            unfold next_rotation_index at hidx
            obtain ⟨h1, h2, h3, h4⟩ :=
              firstNotUsed_range'_some (usedIndices entries base)
                MAX_ROTATED_FILES_PER_DAY 1 i hidx
            exact ⟨i, h1, by omega, rfl, h3,
              fun j hj1 hj2 => h4 j hj1 hj2, by simpa using hpe⟩
    · rw [if_pos (by simp [hex])] at h; cases h
  · intro hall
    unfold rotate
    by_cases hex : logExists = true
    · rw [if_neg (by simp [hex])]
      by_cases hsz : size < MAX_LOG_FILE_SIZE_BYTES
      · rw [if_pos hsz]
      · rw [if_neg hsz]
        have hnone : next_rotation_index entries base = none := by
          unfold next_rotation_index
          exact firstNotUsed_range'_none (usedIndices entries base)
            MAX_ROTATED_FILES_PER_DAY 1
            (fun k hk1 hk2 => hall k hk1 (by omega))
        rw [hnone]
    · rw [if_pos (by simp [hex])]

/-- Concrete archive directory for the C6 witness: index 1 taken,
index 2 free. -/
def c6Entries : List FsEntry := [⟨"2024-01-01_1.log", true⟩]

/-- Witness for C6 at a concrete input: an oversized file whose
archive directory holds only index 1 rotates to index 2, and a
directory holding indices 1..5 blocks rotation. -/
theorem rotation_uses_smallest_unused_index_witness :
    (∃ i, 1 ≤ i ∧ i ≤ MAX_ROTATED_FILES_PER_DAY ∧
      "2024-01-01_2.log" = rotatedName "2024-01-01" i ∧
      (usedIndices c6Entries "2024-01-01").contains (i : Int) = false ∧
      (∀ j, 1 ≤ j → j < i →
        (usedIndices c6Entries "2024-01-01").contains (j : Int) = true) ∧
      pathExists c6Entries "2024-01-01_2.log" = false) ∧
    rotate true (26 * 1024 * 1024)
      [⟨"2024-01-01_1.log", true⟩, ⟨"2024-01-01_2.log", true⟩, ⟨"2024-01-01_3.log", true⟩,
       ⟨"2024-01-01_4.log", true⟩, ⟨"2024-01-01_5.log", true⟩] "2024-01-01" =
      RotateResult.noop := by
  constructor
  · exact (rotation_uses_smallest_unused_index true (26 * 1024 * 1024)
      c6Entries "2024-01-01").1 "2024-01-01_2.log" (by decide)
  · exact (rotation_uses_smallest_unused_index true (26 * 1024 * 1024)
      [⟨"2024-01-01_1.log", true⟩, ⟨"2024-01-01_2.log", true⟩, ⟨"2024-01-01_3.log", true⟩,
       ⟨"2024-01-01_4.log", true⟩, ⟨"2024-01-01_5.log", true⟩] "2024-01-01").2
      (by decide)

/-- C7: a retention pass never unlinks a symlink — every deleted
entry of either pass is a regular, non-symlink file, so no target is
ever reached through a link — and the root pass never deletes the
entry bearing the active daily-log name, whatever the ages involved
(the mtimes are universally quantified inside the entries). -/
theorem retention_spares_symlinks_and_today (entries : List REntry) (cutoff : Int)
    (allowAll : Bool) (todayName : String) :
    ((clean_directory entries cutoff allowAll).all
      (fun e => e.isFile && !e.isSymlink)) = true ∧
    ((clean_root_logs entries cutoff todayName).all
      (fun e => e.isFile && !e.isSymlink && (e.name != todayName))) = true := by
  constructor
  · rw [List.all_eq_true]
    intro e he
    unfold clean_directory at he
    rw [List.mem_filter] at he
    have hp := he.2
    simp only [Bool.and_eq_true, Bool.not_eq_true'] at hp ⊢
    exact ⟨hp.1.1.1, hp.1.1.2⟩
  · rw [List.all_eq_true]
    intro e he
    unfold clean_root_logs at he
    rw [List.mem_filter] at he
    have hp := he.2
    simp only [Bool.and_eq_true, Bool.not_eq_true', decide_eq_true_eq, bne_iff_ne] at hp ⊢
    exact ⟨⟨hp.1.1.1.1, hp.1.1.1.2⟩, hp.1.1.2⟩

/-- C8: a log call entered while the per-thread flag is already set
is a silent no-op — no formatting, no write attempt, flag untouched —
and consequently an outer log call whose write path itself logs
performs exactly one write attempt, with the nested call contributing
no events at all. -/
theorem reentrant_log_is_silent_noop :
    (∀ fuel sd fe wo sl, log_entry (fuel + 1) sd true fe wo sl = (true, [])) ∧
    (∀ fuel, log_entry (fuel + 2) false false false true true =
      (false, [LogEvent.formatted, LogEvent.writeAttempt])) ∧
    (∀ fuel, ((log_entry (fuel + 2) false false false true true).2.count
      LogEvent.writeAttempt) = 1) := by
  have hnoop : ∀ fuel sd fe wo sl, log_entry (fuel + 1) sd true fe wo sl = (true, []) := by
    intro fuel sd fe wo sl
    cases sd <;> rfl
  have houter : ∀ fuel, log_entry (fuel + 2) false false false true true =
      (false, [LogEvent.formatted, LogEvent.writeAttempt]) := by
    intro fuel
    have hstep : log_entry (fuel + 2) false false false true true =
        (false, [LogEvent.formatted, LogEvent.writeAttempt] ++
          (log_entry (fuel + 1) false true false true true).2) := rfl
    rw [hstep, hnoop fuel false false true true]
    rfl
  exact ⟨hnoop, houter, fun fuel => by rw [houter fuel]; rfl⟩

/-! ## Size accounting for the sanitized metadata (claim C9) -/

/-- Size contribution of one sanitized value in the running estimate:
the length of its Python str (zero in the error case, which never
occurs for admitted values). -/
def safeValStrLen (v : SafeVal) : Nat :=
  match v.strOf with
  | .ok s => pyLen s
  | .error _ => 0

/-- Total serialized-size estimate of a sanitized metadata dict, the
quantity the admission loop accounts against MAX_METADATA_SIZE. -/
def metaSize (d : List (String × SafeVal)) : Nat :=
  (d.map (fun kv => pyLen kv.1 + safeValStrLen kv.2)).sum

/-- The truncated keys the entries of a metadata dict would produce,
in insertion order (entries whose key has no str are dropped; they
can only occur after the point where the loop raised). -/
def transformedKeys (entries : List (PyObj × PyObj)) : List String :=
  entries.filterMap
    (fun kv => kv.1.pyStr.map (fun ks => pySlice ks MAX_METADATA_KEY_LENGTH))

/-- Slicing cannot lengthen beyond the requested count. -/
lemma pyLen_pySlice_le (s : String) (n : Nat) : pyLen (pySlice s n) ≤ n := by
  simp only [pyLen, pySlice, List.length_take]
  exact Nat.min_le_left n s.data.length

/-- A dict assignment grows the entry list by at most one. -/
lemma dictInsert_length_le (d : List (String × SafeVal)) (k : String) (v : SafeVal) :
    (dictInsert d k v).length ≤ d.length + 1 := by
  induction d with
  | nil => simp [dictInsert]
  | cons hd tl ih =>
    unfold dictInsert
    by_cases hk : hd.1 = k
    · rw [if_pos hk]; simp
    · rw [if_neg hk]; simpa using ih

/-- Every entry of a dict assignment result is an old entry or the
newly assigned pair. -/
lemma dictInsert_mem (d : List (String × SafeVal)) (k : String) (v : SafeVal) :
    ∀ kv ∈ dictInsert d k v, kv ∈ d ∨ kv = (k, v) := by
  induction d with
  | nil => intro kv h; simp [dictInsert] at h; exact Or.inr h
  | cons hd tl ih =>
    intro kv h
    unfold dictInsert at h
    by_cases hk : hd.1 = k
    · rw [if_pos hk] at h
      rcases List.mem_cons.mp h with h1 | h1
      · exact Or.inr h1
      · exact Or.inl (List.mem_cons_of_mem hd h1)
    · rw [if_neg hk] at h
      rcases List.mem_cons.mp h with h1 | h1
      · exact Or.inl (h1 ▸ List.mem_cons_self hd tl)
      · rcases ih kv h1 with h2 | h2
        · exact Or.inl (List.mem_cons_of_mem hd h2)
        · exact Or.inr h2

/-- A dict assignment adds at most the size of the assigned entry to
the running estimate (an overwrite releases the overwritten cost). -/
lemma dictInsert_metaSize_le (d : List (String × SafeVal)) (k : String) (v : SafeVal) :
    metaSize (dictInsert d k v) ≤ metaSize d + (pyLen k + safeValStrLen v) := by
  induction d with
  | nil => simp [dictInsert, metaSize]
  | cons hd tl ih =>
    unfold dictInsert
    by_cases hk : hd.1 = k
    · rw [if_pos hk]
      simp only [metaSize, List.map_cons, List.sum_cons]
      omega
    · rw [if_neg hk]
      simp only [metaSize, List.map_cons, List.sum_cons] at ih ⊢
      omega

/-- A dict assignment either keeps the key sequence (overwrite) or
appends the new key at the end. -/
lemma dictInsert_keys (d : List (String × SafeVal)) (k : String) (v : SafeVal) :
    (dictInsert d k v).map Prod.fst = d.map Prod.fst ∨
    (dictInsert d k v).map Prod.fst = d.map Prod.fst ++ [k] := by
  induction d with
  | nil => exact Or.inr (by simp [dictInsert])
  | cons hd tl ih =>
    unfold dictInsert
    by_cases hk : hd.1 = k
    · exact Or.inl (by rw [if_pos hk]; simp [hk])
    · rw [if_neg hk]
      rcases ih with h1 | h1
      · exact Or.inl (by simp [h1])
      · exact Or.inr (by simp [h1])

/-- Invariant of the metadata admission loop: from a state whose dict
is bounded by the key count, whose size estimate is bounded by the
running total, and whose total respects the budget, every ok result
respects the key-count cap, the size budget, the key-length cap,
takes every entry from the initial dict or from the remaining input
entries (transformed exactly as the loop transforms them), and its
key sequence extends the state keys by a subsequence of the incoming
transformed keys, in order. -/
lemma sanitizeLoop_inv :
    ∀ (rest : List (PyObj × PyObj)) (safe : List (String × SafeVal))
      (total count : Nat) (out : List (String × SafeVal)),
      sanitizeLoop rest safe total count = Except.ok out →
      safe.length ≤ count →
      metaSize safe ≤ total →
      total ≤ MAX_METADATA_SIZE →
      (∀ kv ∈ safe, pyLen kv.1 ≤ MAX_METADATA_KEY_LENGTH) →
      out.length ≤ max count MAX_METADATA_KEYS ∧
      metaSize out ≤ MAX_METADATA_SIZE ∧
      (∀ kv ∈ out, pyLen kv.1 ≤ MAX_METADATA_KEY_LENGTH) ∧
      (∀ kv ∈ out, kv ∈ safe ∨ ∃ k0 v0 ks, (k0, v0) ∈ rest ∧ k0.pyStr = some ks ∧
        kv.1 = pySlice ks MAX_METADATA_KEY_LENGTH ∧ kv.2 = safe_json_value v0) ∧
      List.Sublist (out.map Prod.fst) (safe.map Prod.fst ++ transformedKeys rest) := by
  intro rest
  induction rest with
  | nil =>
    intro safe total count out h hlen hsz htot hkeys
    cases Except.ok.inj h
    refine ⟨Nat.le_trans hlen (Nat.le_max_left count MAX_METADATA_KEYS),
      Nat.le_trans hsz htot, hkeys, fun kv hkv => Or.inl hkv, ?_⟩
    simp [transformedKeys]
  | cons e rest ih =>
    intro safe total count out h hlen hsz htot hkeys
    obtain ⟨k, v⟩ := e
    unfold sanitizeLoop at h
    by_cases hcount : count ≥ MAX_METADATA_KEYS
    · rw [if_pos hcount] at h
      cases Except.ok.inj h
      exact ⟨Nat.le_trans hlen (Nat.le_max_left count MAX_METADATA_KEYS),
        Nat.le_trans hsz htot, hkeys, fun kv hkv => Or.inl hkv,
        List.sublist_append_left _ _⟩
    · rw [if_neg hcount] at h
      cases hk : k.pyStr with
      | none => rw [hk] at h; cases h
      | some ks =>
        rw [hk] at h
        cases hv : (safe_json_value v).strOf with
        | error u => rw [hv] at h; cases h
        | ok vs =>
          rw [hv] at h
          have htk : transformedKeys ((k, v) :: rest) =
              pySlice ks MAX_METADATA_KEY_LENGTH :: transformedKeys rest := by
            simp [transformedKeys, hk]
          have h2 : (if total + (pyLen (pySlice ks MAX_METADATA_KEY_LENGTH) + pyLen vs) >
                MAX_METADATA_SIZE then Except.ok safe
              else sanitizeLoop rest
                (dictInsert safe (pySlice ks MAX_METADATA_KEY_LENGTH) (safe_json_value v))
                (total + (pyLen (pySlice ks MAX_METADATA_KEY_LENGTH) + pyLen vs))
                (count + 1)) = Except.ok out := h
          by_cases hbudget :
              total + (pyLen (pySlice ks MAX_METADATA_KEY_LENGTH) + pyLen vs) >
                MAX_METADATA_SIZE
          · rw [if_pos hbudget] at h2
            cases Except.ok.inj h2
            refine ⟨Nat.le_trans hlen (Nat.le_max_left count MAX_METADATA_KEYS),
              Nat.le_trans hsz htot, hkeys, fun kv hkv => Or.inl hkv, ?_⟩
            exact List.sublist_append_left _ _
          · rw [if_neg hbudget] at h2
            have hvallen : safeValStrLen (safe_json_value v) = pyLen vs := by
              unfold safeValStrLen
              rw [hv]
            have hrec := ih (dictInsert safe (pySlice ks MAX_METADATA_KEY_LENGTH)
                (safe_json_value v))
              (total + (pyLen (pySlice ks MAX_METADATA_KEY_LENGTH) + pyLen vs))
              (count + 1) out h2
              (Nat.le_trans (dictInsert_length_le _ _ _) (by omega))
              (by
                refine Nat.le_trans (dictInsert_metaSize_le _ _ _) ?_
                rw [hvallen]
                omega)
              (by omega)
              (by
                intro kv hkv
                rcases dictInsert_mem _ _ _ kv hkv with h1 | h1
                · exact hkeys kv h1
                · rw [h1]
                  exact pyLen_pySlice_le ks MAX_METADATA_KEY_LENGTH)
            obtain ⟨r1, r2, r3, r4, r5⟩ := hrec
            refine ⟨?_, r2, r3, ?_, ?_⟩
            · have hmax1 : max (count + 1) MAX_METADATA_KEYS = MAX_METADATA_KEYS :=
                Nat.max_eq_right (by omega)
              have hmax2 : MAX_METADATA_KEYS ≤ max count MAX_METADATA_KEYS :=
                Nat.le_max_right count MAX_METADATA_KEYS
              omega
            · intro kv hkv
              rcases r4 kv hkv with h1 | h1
              · rcases dictInsert_mem _ _ _ kv h1 with h2 | h2
                · exact Or.inl h2
                · refine Or.inr ⟨k, v, ks, List.mem_cons_self _ _, hk, ?_, ?_⟩
                  · rw [h2]
                  · rw [h2]
              · obtain ⟨k0, v0, ks0, hmem, hrest⟩ := h1
                exact Or.inr ⟨k0, v0, ks0, List.mem_cons_of_mem _ hmem, hrest⟩
            · rw [htk]
              rcases dictInsert_keys safe (pySlice ks MAX_METADATA_KEY_LENGTH)
                  (safe_json_value v) with hkeq | hkeq
              · rw [hkeq] at r5
                refine List.Sublist.trans r5 ?_
                exact List.Sublist.append_left (List.sublist_cons_self _ _) _
              · rw [hkeq] at r5
                refine List.Sublist.trans r5 ?_
                rw [List.append_assoc]
                exact List.Sublist.refl _

/-- C9: the metadata sanitizer yields an empty mapping for missing or
non-mapping input; values are converted by keeping JSON-serializable
originals, falling back to their text and then to the literal
placeholder; and every sanitized dict respects the key-count cap, the
size budget, the key-length cap, takes every entry from some input
entry (key stringified then truncated, value converted), keeps keys
in insertion order (the key sequence is a subsequence of the
transformed input key sequence), and admission stops at the first
entry whose size would push the running estimate past the budget. -/
theorem sanitize_metadata_spec :
    (sanitize_metadata MetaInput.noneMeta = Except.ok [] ∧
     (∀ v, sanitize_metadata (MetaInput.notDict v) = Except.ok []) ∧
     sanitize_metadata (MetaInput.dict []) = Except.ok []) ∧
    (∀ v : PyObj,
      (v.dumps.isSome = true → safe_json_value v = SafeVal.orig v) ∧
      (v.dumps = none → ∀ s, v.pyStr = some s → safe_json_value v = SafeVal.text s) ∧
      (v.dumps = none → v.pyStr = none →
        safe_json_value v = SafeVal.text "<unserializable>")) ∧
    (∀ entries out, sanitize_metadata (MetaInput.dict entries) = Except.ok out →
      out.length ≤ MAX_METADATA_KEYS ∧
      metaSize out ≤ MAX_METADATA_SIZE ∧
      (∀ kv ∈ out, pyLen kv.1 ≤ MAX_METADATA_KEY_LENGTH) ∧
      (∀ kv ∈ out, ∃ k0 v0 ks, (k0, v0) ∈ entries ∧ k0.pyStr = some ks ∧
        kv.1 = pySlice ks MAX_METADATA_KEY_LENGTH ∧ kv.2 = safe_json_value v0) ∧
      List.Sublist (out.map Prod.fst) (transformedKeys entries)) ∧
    (∀ k v (rest : List (PyObj × PyObj)) (safe : List (String × SafeVal))
        (total count : Nat) (ks vs : String),
      count < MAX_METADATA_KEYS → k.pyStr = some ks →
      (safe_json_value v).strOf = Except.ok vs →
      total + (pyLen (pySlice ks MAX_METADATA_KEY_LENGTH) + pyLen vs) >
        MAX_METADATA_SIZE →
      sanitizeLoop ((k, v) :: rest) safe total count = Except.ok safe) := by
  refine ⟨⟨rfl, fun v => rfl, rfl⟩, ?_, ?_, ?_⟩
  · intro v
    refine ⟨?_, ?_, ?_⟩
    · intro hd
      unfold safe_json_value
      cases hv : v.dumps with
      | none => rw [hv] at hd; cases hd
      | some j => rfl
    · intro hd s hs
      unfold safe_json_value
      rw [hd, hs]
    · intro hd hs
      unfold safe_json_value
      rw [hd, hs]
  · intro entries out h
    have hinv := sanitizeLoop_inv entries [] 0 0 out h (by simp)
      (by simp [metaSize]) (by simp [MAX_METADATA_SIZE]) (by simp)
    obtain ⟨r1, r2, r3, r4, r5⟩ := hinv
    refine ⟨by simpa using r1, r2, r3, ?_, by simpa using r5⟩
    intro kv hkv
    rcases r4 kv hkv with h1 | h1
    · cases h1
    · exact h1
  · intro k v rest safe total count ks vs hcount hk hv hbudget
    unfold sanitizeLoop
    rw [if_neg (by omega), hk, hv]
    exact if_pos hbudget

/-- Witness for C9 at concrete inputs: a one-entry dict sanitizes to
the expected singleton within all caps, and an over-budget state
admits nothing further. -/
theorem sanitize_metadata_spec_witness :
    sanitizeLoop [(strObj "k", strObj "1")] [] 6000 0 = Except.ok [] ∧
    ([("a", SafeVal.orig (strObj "1"))] : List (String × SafeVal)).length ≤
      MAX_METADATA_KEYS ∧
    metaSize [("a", SafeVal.orig (strObj "1"))] ≤ MAX_METADATA_SIZE := by
  have h3 := sanitize_metadata_spec.2.2.1 [(strObj "a", strObj "1")]
    [("a", SafeVal.orig (strObj "1"))] (by rfl)
  have h4 := sanitize_metadata_spec.2.2.2 (strObj "k") (strObj "1") [] [] 6000 0
    "k" "1" (by decide) rfl rfl (by decide)
  exact ⟨h4, h3.1, h3.2.1⟩

end TraceNest
